import Mathlib

/-!
# Verification of the QuPyt pulse-sequence compiler subsystem

A shallow embedding, in Lean 4, of the parts of QuPyt that the
specification's testable properties concern:

* the change-detection cache (`qupyt/pulse_sequences/SequenceDesigner.py`,
  class `PulseSequenceYaml`),
* the AWG waveform compiler (`PulseSequence`: sample count, pulse
  rasterization window, marker packing),
* the PulseBlaster instruction compiler (`PulseBlasterSequence`: edge
  timeline, segment durations, channel bitmasks, zero-length pruning,
  block assembly; `qupyt/hardware/synchronisers.py` `PulseBlaster`:
  short-pulse encoding),
* the dynamic sweep-list generator
  (`qupyt/hardware/device_handler.py`, `DynamicDeviceHandler`).

Python floats are modelled as exact rationals (`ℚ`), Python ints as `ℤ`/`ℕ`,
fallible operations (uncaught exceptions: `FileNotFoundError`,
`yaml.YAMLError`, `IndexError`, `ValueError`) as `Option`/`Except`.
Numpy arrays are modelled as lists; numpy basic slice assignment
`arr[s:e] = v` clips the slice to the available range (it never raises for
out-of-range slice bounds), which the embedding mirrors.
-/

/-- The state of the persisted baseline file (`sequence.aux`) next to the
sequence specification: it can be absent (reading raises
`FileNotFoundError`), present but unreadable/corrupt (reading or
`yaml.safe_load` raises an error that is *not* `FileNotFoundError`), or
hold a previously stored specification. -/
inductive AuxState (α : Type) where
  | missing : AuxState α
  | corrupt : AuxState α
  | stored : α → AuxState α
deriving DecidableEq

namespace PulseSequenceYaml

/-- Embeds `PulseSequenceYaml._sequence_didnt_change` (SequenceDesigner.py
lines 20–32).  `current` is the already-parsed current specification (the
main `sequence.yaml`), `aux` the state of the baseline file.  The Python
code reads the baseline inside a `try` block that catches only
`FileNotFoundError`; in that case it writes the new baseline and returns
`False` ("changed").  When the baseline is readable it writes the new
baseline and returns the structural comparison.  Any other error while
reading the baseline (a corrupt file makes `yaml.safe_load` raise
`yaml.YAMLError`) is not caught and propagates, modelled as
`Except.error ()`.  The returned pair is (comparison result, new state of
the baseline file). -/
def sequence_didnt_change {α : Type} [DecidableEq α] (current : α)
    (aux : AuxState α) : Except Unit (Bool × AuxState α) :=
  match aux with
  | AuxState.missing => Except.ok (false, AuxState.stored current)
  | AuxState.corrupt => Except.error ()
  | AuxState.stored prev =>
      Except.ok (decide (prev = current), AuxState.stored current)

/-- Embeds the guard of
`PulseSequenceYaml.translate_yaml_to_numeric_instructions`
(SequenceDesigner.py lines 34–36): the sequence is recompiled exactly when
`_sequence_didnt_change` returns `False`. -/
def should_recompile {α : Type} [DecidableEq α] (current : α)
    (aux : AuxState α) : Except Unit (Bool × AuxState α) :=
  (sequence_didnt_change current aux).map (fun p => (!p.1, p.2))

end PulseSequenceYaml

namespace DynamicDeviceHandler

/-- Embeds `numpy.linspace(start, stop, num)` as used by
`DynamicDeviceHandler._make_sweep_lists`: `num` evenly spaced values from
`start` to `stop`, both endpoints included (for `num ≥ 2`). -/
def linspace (start stop : ℚ) (num : ℕ) : List ℚ :=
  if num = 0 then []
  else if num = 1 then [start]
  else (List.range num).map (fun i : ℕ => start + (i : ℚ) * ((stop - start) / ((num : ℚ) - 1)))

/-- Embeds the per-parameter body of `DynamicDeviceHandler._make_sweep_lists`
(device_handler.py lines 261–274), after the `float` coercion of the value
list has succeeded: a two-element list is linearly interpolated over
`number_dynamic_steps` via `np.linspace`; any other list must have length
exactly `number_dynamic_steps`, else a `ValueError` is raised before any
sweep values are stored; a list of matching length is stored as-is. -/
def make_sweep_list (values : List ℚ) (number_dynamic_steps : ℕ) :
    Except String (List ℚ) :=
  if values.length = 2 then
    Except.ok (linspace (values.getD 0 0) (values.getD 1 0) number_dynamic_steps)
  else if values.length ≠ number_dynamic_steps then
    Except.error "Trying to set manual sweep value list. Please make sure the number of dynamic_steps matches the length of the provided list"
  else
    Except.ok values

end DynamicDeviceHandler

/-- C2: the change-detection check reports "changed" on first-ever
invocation (no prior baseline); after every successful invocation the
persisted baseline equals the specification just checked, whatever the
comparison result; hence a second call in a row with the same
specification reports "unchanged" (`true` = "didn't change").  In terms of
`should_recompile`: `true` then `false`. -/
theorem cache_reports_changed_then_unchanged {α : Type} [DecidableEq α]
    (current : α) (aux : AuxState α) :
    PulseSequenceYaml.sequence_didnt_change current AuxState.missing =
      Except.ok (false, AuxState.stored current)
    ∧ (∀ b st, PulseSequenceYaml.sequence_didnt_change current aux =
        Except.ok (b, st) → st = AuxState.stored current)
    ∧ (∀ b st, PulseSequenceYaml.sequence_didnt_change current aux =
        Except.ok (b, st) →
        PulseSequenceYaml.sequence_didnt_change current st =
          Except.ok (true, AuxState.stored current)) := by
  refine ⟨rfl, ?_, ?_⟩ <;>
  · intro b st h
    cases aux with
    | missing =>
        simp only [PulseSequenceYaml.sequence_didnt_change] at h
        cases h
        simp [PulseSequenceYaml.sequence_didnt_change]
    | corrupt => simp [PulseSequenceYaml.sequence_didnt_change] at h
    | stored prev =>
        simp only [PulseSequenceYaml.sequence_didnt_change] at h
        cases h
        simp [PulseSequenceYaml.sequence_didnt_change]

/-- C2 witness: the two calls evaluated at a concrete specification. -/
theorem cache_reports_changed_then_unchanged_witness :
    PulseSequenceYaml.sequence_didnt_change (0 : ℕ) AuxState.missing =
      Except.ok (false, AuxState.stored 0)
    ∧ PulseSequenceYaml.sequence_didnt_change (0 : ℕ) (AuxState.stored 0) =
      Except.ok (true, AuxState.stored 0) := by
  have h := cache_reports_changed_then_unchanged (0 : ℕ) AuxState.missing
  exact ⟨h.1, h.2.2 false (AuxState.stored 0) h.1⟩

/-- C7 counterexample: with a corrupt (present but unreadable) baseline the
check raises — the `yaml` parse error is not `FileNotFoundError`, so the
`except` clause does not catch it — instead of treating the specification
as "changed". -/
theorem cache_corrupt_baseline_raises_cex :
    PulseSequenceYaml.sequence_didnt_change (0 : ℕ) AuxState.corrupt =
      Except.error ()
    ∧ PulseSequenceYaml.sequence_didnt_change (0 : ℕ) AuxState.corrupt ≠
      Except.ok (false, AuxState.stored 0) := by
  exact ⟨rfl, by simp [PulseSequenceYaml.sequence_didnt_change]⟩

/-- C7 amended: only a *missing* baseline degrades gracefully to "changed"
(and the new baseline is persisted); a baseline that exists but is
unreadable or corrupt makes the check raise, so compilation does not
proceed (the error propagates out of `translate_yaml_to_numeric_instructions`). -/
theorem cache_missing_vs_corrupt {α : Type} [DecidableEq α] (current : α) :
    PulseSequenceYaml.sequence_didnt_change current AuxState.missing =
      Except.ok (false, AuxState.stored current)
    ∧ PulseSequenceYaml.sequence_didnt_change current AuxState.corrupt =
      (Except.error () : Except Unit (Bool × AuxState α)) :=
  ⟨rfl, rfl⟩

/-- C9: a sweep value list of any length other than two is accepted as-is
exactly when its length equals `number_dynamic_steps`; on a mismatch the
builder raises a `ValueError` (no values are stored, the list is neither
truncated nor padded). -/
theorem manual_sweep_list_length_check (values : List ℚ) (n : ℕ)
    (h2 : values.length ≠ 2) :
    (values.length ≠ n →
      DynamicDeviceHandler.make_sweep_list values n =
        Except.error "Trying to set manual sweep value list. Please make sure the number of dynamic_steps matches the length of the provided list")
    ∧ (values.length = n →
      DynamicDeviceHandler.make_sweep_list values n = Except.ok values) := by
  constructor
  · intro hne
    simp [DynamicDeviceHandler.make_sweep_list, h2, hne]
  · intro he
    unfold DynamicDeviceHandler.make_sweep_list
    rw [if_neg h2, if_neg (fun hne => hne he)]

/-- C9 witness: the spec's scenario — `[1,2,3]` with `number_steps = 4`
raises, with `number_steps = 3` it is accepted as-is. -/
theorem manual_sweep_list_length_check_witness :
    DynamicDeviceHandler.make_sweep_list [1, 2, 3] 4 =
      Except.error "Trying to set manual sweep value list. Please make sure the number of dynamic_steps matches the length of the provided list"
    ∧ DynamicDeviceHandler.make_sweep_list [1, 2, 3] 3 =
      Except.ok [1, 2, 3] := by
  have h4 := manual_sweep_list_length_check [1, 2, 3] 4 (by simp)
  have h3 := manual_sweep_list_length_check [1, 2, 3] 3 (by simp)
  exact ⟨h4.1 (by simp), h3.2 (by simp)⟩

/-- C10: a two-element value list is always taken as interpolation
endpoints: for every `number_dynamic_steps` the builder returns the
`number_dynamic_steps`-point linear interpolation (never the
length-mismatch error), whose length is `number_dynamic_steps` and which,
when it has at least two points, starts at the first and ends at the
second element. -/
theorem two_element_sweep_always_interpolates (a b : ℚ) (n : ℕ) :
    DynamicDeviceHandler.make_sweep_list [a, b] n =
      Except.ok (DynamicDeviceHandler.linspace a b n)
    ∧ (DynamicDeviceHandler.linspace a b n).length = n
    ∧ (2 ≤ n → (DynamicDeviceHandler.linspace a b n).headI = a
        ∧ (DynamicDeviceHandler.linspace a b n).getLast? = some b) := by
  refine ⟨by simp [DynamicDeviceHandler.make_sweep_list], ?_, ?_⟩
  · unfold DynamicDeviceHandler.linspace
    match n with
    | 0 => rfl
    | 1 => rfl
    | (k+2) =>
        rw [if_neg (by omega), if_neg (by omega), List.length_map,
          List.length_range]
  · intro hn
    obtain ⟨k, rfl⟩ : ∃ k, n = k + 2 := ⟨n - 2, by omega⟩
    unfold DynamicDeviceHandler.linspace
    rw [if_neg (by omega), if_neg (by omega)]
    constructor
    · rw [List.range_succ_eq_map, List.map_cons]
      simp
    · rw [List.range_succ, List.map_append, List.getLast?_append]
      have hfactor : ((k : ℚ) + 2) - 1 ≠ 0 := by
        have hk : (0 : ℚ) ≤ (k : ℚ) := Nat.cast_nonneg k
        intro h
        nlinarith
      simp only [List.map_cons, List.map_nil, List.getLast?_singleton,
        Option.or_some, Option.some.injEq]
      push_cast
      field_simp
      ring

/-- C10 witness: the spec's scenario — endpoints `0` and `10` with five
steps, never a length error. -/
theorem two_element_sweep_always_interpolates_witness :
    DynamicDeviceHandler.make_sweep_list [0, 10] 5 =
      Except.ok (DynamicDeviceHandler.linspace 0 10 5)
    ∧ (DynamicDeviceHandler.linspace 0 10 5).length = 5
    ∧ (2 ≤ 5 → (DynamicDeviceHandler.linspace 0 10 5).headI = 0
        ∧ (DynamicDeviceHandler.linspace 0 10 5).getLast? = some 10) :=
  two_element_sweep_always_interpolates 0 10 5

namespace PulseSequence

/-- Python `int()` applied to a (real-valued) number: truncation toward
zero.  Embeds the `int(...)` on SequenceDesigner.py line 75. -/
def pyInt (q : ℚ) : ℤ := if 0 ≤ q then ⌊q⌋ else -⌊-q⌋

/-- Embeds `PulseSequence.__init__`'s
`self.num_points = int(samprate * duration * 1e-6)`
(SequenceDesigner.py line 75): the number of samples of a block, from the
sample rate (samples/second) and the duration (µs).  Floats are modelled
as exact rationals. -/
def num_points (samprate duration : ℚ) : ℤ :=
  pyInt (samprate * duration * (1 / 1000000))

/-- Embeds numpy basic slice assignment `row[s : e] = amp` on one channel
row of the sample array, at offset `j` into the row: the written window is
clipped to the indices that exist; indices outside the row are silently
ignored and can never raise.  Helper for `add_pulse_window`. -/
def write_window (j s e : ℕ) (amp : ℚ) : List ℚ → List ℚ
  | [] => []
  | x :: xs => (if s ≤ j ∧ j < e then amp else x) :: write_window (j + 1) s e amp xs

/-- Embeds the write `self.pulses[numseq, channel, int(start):int(start+duration)] = amplitude * fr`
of `PulseSequence.add_pulse` (SequenceDesigner.py lines 147–162) on a
single channel row, for the constant-amplitude case (`freq is None`;
with a carrier, `fr = np.cos(... self.time[start : start+duration] ...)`
is clipped by the very same slice bounds, so the written window is
identical).  `row` is the channel's sample row (length = `num_points`),
`s`/`e` the rasterized window bounds in samples.  Numpy slice assignment
clips: it raises no error for windows beyond the sample range. -/
def add_pulse_window (row : List ℚ) (s e : ℕ) (amp : ℚ) : List ℚ :=
  write_window 0 s e amp row

/-- Embeds the marker packing of one byte of `PulseSequence.make`
(SequenceDesigner.py lines 170–175): the four digital channel rows are
combined as `row1·2⁷ + row2·2⁶ + row3·2⁵ + row4·2⁴`. -/
def packByte (b1 b2 b3 b4 : ℕ) : ℕ :=
  b1 * 2 ^ 7 + b2 * 2 ^ 6 + b3 * 2 ^ 5 + b4 * 2 ^ 4

/-- Embeds the packed digital row
`final[:, 1, :] = pulses[:,1,:]*2**7 + pulses[:,2,:]*2**6 + pulses[:,3,:]*2**5 + pulses[:,4,:]*2**4`
of `PulseSequence.make`, pointwise over the four equal-length binary
marker rows (the spec's claim concerns 0/1-valued rows, modelled as
naturals). -/
def pack_markers : List ℕ → List ℕ → List ℕ → List ℕ → List ℕ
  | a :: as, b :: bs, c :: cs, d :: ds => packByte a b c d :: pack_markers as bs cs ds
  | _, _, _, _ => []

/-- Unpacking one marker line from a packed byte by bit shift:
`(byte >> k) & 1`. -/
def unpack (k byte : ℕ) : ℕ := (byte >>> k) &&& 1

end PulseSequence

/-- C8 counterexample: at `sample_rate = 10⁶` and `total_duration = 2.7 µs`
the continuous product is `2.7`; the code's `int(...)` yields `2`, the
nearest integer is `3` — the derived sample count is the truncation, not
the rounding the claim states. -/
theorem num_points_truncates_cex :
    PulseSequence.num_points 1000000 (27 / 10) = 2
    ∧ round ((1000000 : ℚ) * (27 / 10) * (1 / 1000000)) = 3 := by
  constructor
  · unfold PulseSequence.num_points PulseSequence.pyInt
    rw [if_pos (by norm_num)]
    rw [show (1000000 : ℚ) * (27 / 10) * (1 / 1000000) = 27 / 10 by norm_num]
    rw [Int.floor_eq_iff]
    norm_num
  · rw [show (1000000 : ℚ) * (27 / 10) * (1 / 1000000) = 27 / 10 by norm_num,
      round_eq]
    rw [show (27 / 10 : ℚ) + 1 / 2 = 16 / 5 by norm_num]
    rw [Int.floor_eq_iff]
    norm_num

/-- C8 amended: for nonnegative sample rate and duration the sample count
is the *floor* (truncation toward zero) of
`sample_rate × duration × 1e-6`: it is at most the continuous product and
within one below it. -/
theorem num_points_floor_characterization (samprate duration : ℚ)
    (h1 : 0 ≤ samprate) (h2 : 0 ≤ duration) :
    (PulseSequence.num_points samprate duration : ℚ) ≤
      samprate * duration * (1 / 1000000)
    ∧ samprate * duration * (1 / 1000000) <
      PulseSequence.num_points samprate duration + 1 := by
  have hq : (0 : ℚ) ≤ samprate * duration * (1 / 1000000) := by positivity
  unfold PulseSequence.num_points PulseSequence.pyInt
  rw [if_pos hq]
  exact ⟨Int.floor_le _, Int.lt_floor_add_one _⟩

/-- C8 witness: the floor characterization at the counterexample's input. -/
theorem num_points_floor_characterization_witness :
    (PulseSequence.num_points 1000000 (27 / 10) : ℚ) ≤
      (1000000 : ℚ) * (27 / 10) * (1 / 1000000)
    ∧ (1000000 : ℚ) * (27 / 10) * (1 / 1000000) <
      PulseSequence.num_points 1000000 (27 / 10) + 1 :=
  num_points_floor_characterization 1000000 (27 / 10) (by norm_num) (by norm_num)

/-- The written window of `write_window` keeps the row length: numpy slice
assignment never grows or shrinks the array. -/
theorem write_window_length (s e : ℕ) (amp : ℚ) :
    ∀ (l : List ℚ) (j : ℕ), (PulseSequence.write_window j s e amp l).length = l.length := by
  intro l
  induction l with
  | nil => intro j; rfl
  | cons x xs ih =>
      intro j
      simp [PulseSequence.write_window, ih]

/-- Pointwise description of `write_window`: position `n` of the result
holds the amplitude exactly when its absolute index `j + n` lies in the
requested window, and the old sample otherwise; positions beyond the row
do not exist (the window is clipped). -/
theorem write_window_getElem (s e : ℕ) (amp : ℚ) :
    ∀ (l : List ℚ) (j n : ℕ), (PulseSequence.write_window j s e amp l)[n]? =
      (l[n]?).map (fun x => if s ≤ j + n ∧ j + n < e then amp else x) := by
  intro l
  induction l with
  | nil => intro j n; rfl
  | cons x xs ih =>
      intro j n
      cases n with
      | zero => simp [PulseSequence.write_window]
      | succ m =>
          simp only [PulseSequence.write_window, List.getElem?_cons_succ, ih (j + 1) m,
            show j + 1 + m = j + (m + 1) from by omega]

/-- A window that starts at or beyond the end of the row writes nothing. -/
theorem write_window_past_end (s e : ℕ) (amp : ℚ) :
    ∀ (l : List ℚ) (j : ℕ), l.length + j ≤ s →
      PulseSequence.write_window j s e amp l = l := by
  intro l
  induction l with
  | nil => intro j _; rfl
  | cons x xs ih =>
      intro j h
      simp only [List.length_cons] at h
      simp only [PulseSequence.write_window]
      rw [if_neg (by omega), ih (j + 1) (by omega)]

/-- C6 counterexample: a pulse whose rasterized window lies beyond the
sample range (`[10,12)` against 4 samples) is silently ignored — the call
returns normally with the row unchanged — and a window partly outside
(`[2,6)`) is silently clipped to the available samples; no index error is
raised, contrary to the claim that such a pulse is fatal. -/
theorem add_pulse_out_of_range_silently_clips_cex :
    PulseSequence.add_pulse_window [0, 0, 0, 0] 10 12 1 = [0, 0, 0, 0]
    ∧ PulseSequence.add_pulse_window [0, 0, 0, 0] 2 6 1 = [0, 0, 1, 1] := by
  constructor <;> rfl

/-- C6 amended: rasterizing a pulse writes the amplitude exactly on the
intersection of the requested window `[s, e)` with the existing sample
range — the write is silently clipped, the row keeps its length, and a
window entirely at or beyond `sample_count` leaves the row unchanged;
no input raises an index error. -/
theorem add_pulse_clips_to_range (row : List ℚ) (s e : ℕ) (amp : ℚ) :
    (PulseSequence.add_pulse_window row s e amp).length = row.length
    ∧ (∀ n, (PulseSequence.add_pulse_window row s e amp)[n]? =
        (row[n]?).map (fun x => if s ≤ n ∧ n < e then amp else x))
    ∧ (row.length ≤ s → PulseSequence.add_pulse_window row s e amp = row) := by
  refine ⟨write_window_length s e amp row 0, ?_, ?_⟩
  · intro n
    simpa using write_window_getElem s e amp row 0 n
  · intro h
    exact write_window_past_end s e amp row 0 (by omega)

/-- C6 witness: the amended statement applied at the counterexample's
out-of-range input. -/
theorem add_pulse_clips_to_range_witness :
    (PulseSequence.add_pulse_window [0, 0, 0, 0] 10 12 1).length =
      ([0, 0, 0, 0] : List ℚ).length
    ∧ (∀ n, (PulseSequence.add_pulse_window [0, 0, 0, 0] 10 12 1)[n]? =
        (([0, 0, 0, 0] : List ℚ)[n]?).map (fun x => if 10 ≤ n ∧ n < 12 then 1 else x))
    ∧ (([0, 0, 0, 0] : List ℚ).length ≤ 10 →
        PulseSequence.add_pulse_window [0, 0, 0, 0] 10 12 1 = [0, 0, 0, 0]) :=
  add_pulse_clips_to_range [0, 0, 0, 0] 10 12 1

/-- One packed byte unpacks back to its four binary inputs, but at shifts
`7, 6, 5, 4` — the first row sits in bit 7, the last in bit 4. -/
theorem packByte_bits (a b c d : ℕ) (ha : a ≤ 1) (hb : b ≤ 1) (hc : c ≤ 1)
    (hd : d ≤ 1) :
    PulseSequence.unpack 7 (PulseSequence.packByte a b c d) = a
    ∧ PulseSequence.unpack 6 (PulseSequence.packByte a b c d) = b
    ∧ PulseSequence.unpack 5 (PulseSequence.packByte a b c d) = c
    ∧ PulseSequence.unpack 4 (PulseSequence.packByte a b c d) = d := by
  interval_cases a <;> interval_cases b <;> interval_cases c <;>
    interval_cases d <;> decide

/-- C4 counterexample: packing rows `[1],[0],[0],[0]` yields byte `128`
(`2⁷`), so unpacking the first row (`k = 0`) with the claimed shift
`(byte >> (4+k)) & 1` returns `0`, not the original `1`: the first row
contributes bit 7, not bit 4. -/
theorem pack_markers_bit_assignment_cex :
    PulseSequence.pack_markers [1] [0] [0] [0] = [128]
    ∧ (PulseSequence.pack_markers [1] [0] [0] [0]).map
        (PulseSequence.unpack (4 + 0)) = [0]
    ∧ ([0] : List ℕ) ≠ [1] := by
  refine ⟨rfl, rfl, by decide⟩

/-- C4 amended: marker packing round-trips with the shifts reversed: for
four binary rows of equal length, row `k` (k = 0..3, in the order packed)
contributes bit `7 − k` of each byte, and unpacking via
`(byte >> (7−k)) & 1` reproduces the four original rows exactly. -/
theorem pack_markers_roundtrip (r1 r2 r3 r4 : List ℕ)
    (hb1 : ∀ x ∈ r1, x ≤ 1) (hb2 : ∀ x ∈ r2, x ≤ 1)
    (hb3 : ∀ x ∈ r3, x ≤ 1) (hb4 : ∀ x ∈ r4, x ≤ 1)
    (hl2 : r2.length = r1.length) (hl3 : r3.length = r1.length)
    (hl4 : r4.length = r1.length) :
    (PulseSequence.pack_markers r1 r2 r3 r4).map (PulseSequence.unpack 7) = r1
    ∧ (PulseSequence.pack_markers r1 r2 r3 r4).map (PulseSequence.unpack 6) = r2
    ∧ (PulseSequence.pack_markers r1 r2 r3 r4).map (PulseSequence.unpack 5) = r3
    ∧ (PulseSequence.pack_markers r1 r2 r3 r4).map (PulseSequence.unpack 4) = r4 := by
  induction r1 generalizing r2 r3 r4 with
  | nil =>
      obtain rfl : r2 = [] := List.eq_nil_of_length_eq_zero hl2
      obtain rfl : r3 = [] := List.eq_nil_of_length_eq_zero hl3
      obtain rfl : r4 = [] := List.eq_nil_of_length_eq_zero hl4
      exact ⟨rfl, rfl, rfl, rfl⟩
  | cons a as ih =>
      cases r2 with
      | nil => simp at hl2
      | cons b bs =>
        cases r3 with
        | nil => simp at hl3
        | cons c cs =>
          cases r4 with
          | nil => simp at hl4
          | cons d ds =>
            have hhead := packByte_bits a b c d (hb1 a (by simp))
              (hb2 b (by simp)) (hb3 c (by simp)) (hb4 d (by simp))
            have htail := ih bs cs ds (fun x hx => hb1 x (by simp [hx]))
              (fun x hx => hb2 x (by simp [hx])) (fun x hx => hb3 x (by simp [hx]))
              (fun x hx => hb4 x (by simp [hx]))
              (by simpa using hl2) (by simpa using hl3) (by simpa using hl4)
            simp only [PulseSequence.pack_markers, List.map_cons]
            exact ⟨by rw [hhead.1, htail.1], by rw [hhead.2.1, htail.2.1],
              by rw [hhead.2.2.1, htail.2.2.1], by rw [hhead.2.2.2, htail.2.2.2]⟩

/-- C4 witness: the round trip evaluated on four concrete binary rows. -/
theorem pack_markers_roundtrip_witness :
    (PulseSequence.pack_markers [1, 0] [0, 1] [1, 1] [0, 0]).map
      (PulseSequence.unpack 7) = [1, 0]
    ∧ (PulseSequence.pack_markers [1, 0] [0, 1] [1, 1] [0, 0]).map
      (PulseSequence.unpack 6) = [0, 1]
    ∧ (PulseSequence.pack_markers [1, 0] [0, 1] [1, 1] [0, 0]).map
      (PulseSequence.unpack 5) = [1, 1]
    ∧ (PulseSequence.pack_markers [1, 0] [0, 1] [1, 1] [0, 0]).map
      (PulseSequence.unpack 4) = [0, 0] :=
  pack_markers_roundtrip [1, 0] [0, 1] [1, 1] [0, 0] (by decide) (by decide)
    (by decide) (by decide) (by decide) (by decide) (by decide)

namespace PulseBlaster

/-- Default value of `self.pb_min_instr_clk_cycles` (synchronisers.py line
844): the board's minimum instruction length counted in clock periods
(5 clock periods, i.e. 10 ns at the default 500 MHz clock). -/
def pb_min_instr_clk_cycles : ℚ := 5

/-- Embeds `PulseBlaster.check_pulse_length_short` (synchronisers.py lines
945–951): replaces the duration by the branch's canonical option (logging
a warning when they differ).  Its return value is subsequently discarded
by `program_pb`, which overwrites the duration with
`pb_min_instr_clk_cycles` after the branch chain. -/
def check_pulse_length_short (pulse_duration current_option : ℚ) : ℚ :=
  if pulse_duration ≠ current_option then current_option else pulse_duration

/-- Embeds the per-instruction body of `PulseBlaster.program_pb`
(synchronisers.py lines 969–1002): the (bitmask, duration) pair actually
emitted for one compiled segment.  Durations are in µs.  A duration of at
least `0.01` µs is emitted unchanged.  A shorter positive duration takes
one of the five short-pulse branches, which add the designated high bits
(`2²¹`..`2²³`, the 1–4-extra-clock-period requests; the last branch adds
nothing) to the bitmask; after the chain the duration is overwritten with
`pb_min_instr_clk_cycles` (the clock-period *count*, numerically 5).  For
`d ≤ 0` no branch assigns `channel_bit_mask`, so Python evaluates a stale
or unbound name — modelled as `none`. -/
def short_pulse_encode (mask : ℕ) (d : ℚ) (cycles : ℚ) : Option (ℕ × ℚ) :=
  if 1 / 100 ≤ d then some (mask, d)
  else if 0 < d ∧ d ≤ 3 / 1000 then some (mask + 2 ^ 21, cycles)
  else if 3 / 1000 < d ∧ d ≤ 5 / 1000 then some (mask + 2 ^ 22, cycles)
  else if 5 / 1000 < d ∧ d ≤ 7 / 1000 then some (mask + 2 ^ 21 + 2 ^ 22, cycles)
  else if 7 / 1000 < d ∧ d ≤ 9 / 1000 then some (mask + 2 ^ 23, cycles)
  else if 9 / 1000 < d ∧ d < 1 / 100 then some (mask, cycles)
  else none

end PulseBlaster

/-- C5 counterexample: a 0.002 µs segment is encoded with the
1-clock-period bit `2²¹`, but its emitted duration is
`pb_min_instr_clk_cycles = 5` — the clock-cycle count — which is *not*
the 0.01 µs minimum instruction time that serves as the shortening
threshold (`5 ≠ 1/100`). -/
theorem short_pulse_duration_cex :
    PulseBlaster.short_pulse_encode 0 (2 / 1000)
      PulseBlaster.pb_min_instr_clk_cycles = some (2 ^ 21, 5)
    ∧ (5 : ℚ) ≠ 1 / 100 := by
  constructor
  · unfold PulseBlaster.short_pulse_encode PulseBlaster.pb_min_instr_clk_cycles
    rw [if_neg (by norm_num), if_pos (by norm_num), Nat.zero_add]
  · norm_num

/-- C5 amended: for every segment duration `d` with `0 < d < 0.01` µs (the
shortening threshold), the emitted bitmask differs from the unshortened
one only by one of `{2²¹, 2²², 2²¹+2²², 2²³, 0}` — i.e. only in the three
designated high bits 21–23 — and the emitted duration is
`pb_min_instr_clk_cycles` (numerically 5, the minimum instruction length
in clock periods, not the 0.01 µs minimum instruction time); no such
duration raises an error, and no fatal more-than-5-period error path
exists (durations ≥ 0.01 µs are emitted unshortened). -/
theorem short_pulse_encode_shape (mask : ℕ) (d : ℚ) (h0 : 0 < d)
    (h1 : d < 1 / 100) :
    ∃ extra : ℕ,
      (extra = 2 ^ 21 ∨ extra = 2 ^ 22 ∨ extra = 2 ^ 21 + 2 ^ 22
        ∨ extra = 2 ^ 23 ∨ extra = 0)
      ∧ PulseBlaster.short_pulse_encode mask d
          PulseBlaster.pb_min_instr_clk_cycles =
        some (mask + extra, PulseBlaster.pb_min_instr_clk_cycles) := by
  unfold PulseBlaster.short_pulse_encode
  rw [if_neg (by linarith)]
  rcases le_or_lt d (3 / 1000) with hc1 | hc1
  · exact ⟨2 ^ 21, by tauto, by rw [if_pos ⟨h0, hc1⟩]⟩
  · rw [if_neg (by rintro ⟨-, h⟩; linarith)]
    rcases le_or_lt d (5 / 1000) with hc2 | hc2
    · exact ⟨2 ^ 22, by tauto, by rw [if_pos ⟨hc1, hc2⟩]⟩
    · rw [if_neg (by rintro ⟨-, h⟩; linarith)]
      rcases le_or_lt d (7 / 1000) with hc3 | hc3
      · exact ⟨2 ^ 21 + 2 ^ 22, by tauto, by rw [if_pos ⟨hc2, hc3⟩, Nat.add_assoc]⟩
      · rw [if_neg (by rintro ⟨-, h⟩; linarith)]
        rcases le_or_lt d (9 / 1000) with hc4 | hc4
        · exact ⟨2 ^ 23, by tauto, by rw [if_pos ⟨hc3, hc4⟩]⟩
        · rw [if_neg (by rintro ⟨-, h⟩; linarith)]
          exact ⟨0, by tauto, by rw [if_pos ⟨hc4, h1⟩, Nat.add_zero]⟩

/-- C5 witness: the amended statement at a concrete 0.002 µs segment. -/
theorem short_pulse_encode_shape_witness :
    ∃ extra : ℕ,
      (extra = 2 ^ 21 ∨ extra = 2 ^ 22 ∨ extra = 2 ^ 21 + 2 ^ 22
        ∨ extra = 2 ^ 23 ∨ extra = 0)
      ∧ PulseBlaster.short_pulse_encode 7 (2 / 1000)
          PulseBlaster.pb_min_instr_clk_cycles =
        some (7 + extra, PulseBlaster.pb_min_instr_clk_cycles) :=
  short_pulse_encode_shape 7 (2 / 1000) (by norm_num) (by norm_num)

namespace PulseBlasterSequence

/-- One edge event of the bit timeline, as held by the parallel lists
`event_times` / `event_channel` / `events` of `PulseBlasterSequence` and
zipped into tuples `(time, channel, edge)` by `_sort_pulses`
(SequenceDesigner.py lines 278–283).  The edge is the literal Python
string, `"up"` or `"down"`. -/
structure PBEvent where
  time : ℚ
  channel : String
  edge : String
deriving DecidableEq

/-- The order Python's `sorted` applies to the zipped tuples
`(time, channel, edge)`: lexicographic — time first, then the channel
*name* (string comparison), then the edge label (`"down" < "up"`). -/
def eventLE (a b : PBEvent) : Prop :=
  a.time < b.time ∨ (a.time = b.time ∧ (a.channel < b.channel ∨
    (a.channel = b.channel ∧ a.edge ≤ b.edge)))

instance : DecidableRel eventLE := fun a b => by
  unfold eventLE; infer_instance

instance : IsTotal PBEvent eventLE := by
  constructor
  intro a b
  unfold eventLE
  rcases lt_trichotomy a.time b.time with h | h | h
  · exact Or.inl (Or.inl h)
  · rcases lt_trichotomy a.channel b.channel with hc | hc | hc
    · exact Or.inl (Or.inr ⟨h, Or.inl hc⟩)
    · rcases le_total a.edge b.edge with he | he
      · exact Or.inl (Or.inr ⟨h, Or.inr ⟨hc, he⟩⟩)
      · exact Or.inr (Or.inr ⟨h.symm, Or.inr ⟨hc.symm, he⟩⟩)
    · exact Or.inr (Or.inr ⟨h.symm, Or.inl hc⟩)
  · exact Or.inr (Or.inl h)

instance : IsTrans PBEvent eventLE := by
  constructor
  intro a b c hab hbc
  unfold eventLE at hab hbc ⊢
  rcases hab with h1 | ⟨e1, h1⟩
  · rcases hbc with h2 | ⟨e2, h2⟩
    · exact Or.inl (lt_trans h1 h2)
    · exact Or.inl (e2 ▸ h1)
  · rcases hbc with h2 | ⟨e2, h2⟩
    · exact Or.inl (lt_of_le_of_lt (le_of_eq e1) h2)
    · refine Or.inr ⟨e1.trans e2, ?_⟩
      rcases h1 with hc1 | ⟨ec1, he1⟩
      · rcases h2 with hc2 | ⟨ec2, he2⟩
        · exact Or.inl (lt_trans hc1 hc2)
        · exact Or.inl (ec2 ▸ hc1)
      · rcases h2 with hc2 | ⟨ec2, he2⟩
        · exact Or.inl (lt_of_le_of_lt (le_of_eq ec1) hc2)
        · exact Or.inr ⟨ec1.trans ec2, le_trans he1 he2⟩

/-- Embeds `PulseBlasterSequence._sort_pulses`:
`zip(*sorted(zip(event_times, event_channel, events)))`.  Python's
`sorted` is a stable sort under the lexicographic tuple order `eventLE`;
two events equivalent under `eventLE` in both directions are equal
tuples, so the sorted list is unique and any correct sort (here insertion
sort) produces exactly Python's output. -/
def sort_pulses (events : List PBEvent) : List PBEvent :=
  List.insertionSort eventLE events

/-- Embeds `PulseBlasterSequence._append_event` (lines 260–266): one pulse
contributes an `"up"` edge at `start` and a `"down"` edge at
`start + duration`, in that insertion order, both tagged with the owning
channel's name. -/
def append_event (channel : String) (start duration : ℚ) : List PBEvent :=
  [⟨start, channel, "up"⟩, ⟨start + duration, channel, "down"⟩]

/-- Embeds `PulseBlasterSequence._parse_channel` (lines 268–272): every
pulse of the channel, in order. -/
def parse_channel (channel : String) (channel_pulses : List (ℚ × ℚ)) :
    List PBEvent :=
  (channel_pulses.map (fun p => append_event channel p.1 p.2)).flatten

/-- Embeds `PulseBlasterSequence._parse_block` (lines 274–276): every
channel of the block (in the YAML mapping's insertion order), each
contributing its pulses' edges. -/
def parse_block (ps_block : List (String × List (ℚ × ℚ))) : List PBEvent :=
  (ps_block.map (fun cp => parse_channel cp.1 cp.2)).flatten

/-- Embeds `PulseBlasterSequence._get_event_durations` (lines 285–290):
consecutive differences of the sorted event times
(`zip(times[1:], times[:-1])`), plus a trailing remainder segment when the
last event time differs from `total_duration`.  `event_times[-1]` on an
empty timeline raises `IndexError`, modelled as `none`. -/
def get_event_durations (times : List ℚ) (total : ℚ) : Option (List ℚ) :=
  match times.getLast? with
  | none => none
  | some tlast =>
      let diffs := List.zipWith (fun i j => i - j) times.tail times
      some (if tlast ≠ total then diffs ++ [total - tlast] else diffs)

/-- Embeds `PulseBlasterSequence._event_to_sign` (lines 292–297): `"up"` is
`+1`, `"down"` is `-1`, anything else raises `ValueError` (`none`). -/
def event_to_sign (event : String) : Option ℤ :=
  if event = "up" then some 1
  else if event = "down" then some (-1)
  else none

/-- The loop of `PulseBlasterSequence._compute_channel_bits` (lines
299–304): for each of the `k` duration indices, the running bitmask is the
previous value plus `2 ** channel_mapping[channel] * sign(edge)`; reading
an event index beyond the event list raises `IndexError` (`none`). -/
def bits_loop (mapping : String → ℕ) : ℕ → ℤ → List PBEvent → Option (List ℤ)
  | 0, _, _ => some []
  | _ + 1, _, [] => none
  | k + 1, prev, e :: rest => do
      let s ← event_to_sign e.edge
      let v := prev + (2 : ℤ) ^ mapping e.channel * s
      let tail ← bits_loop mapping k v rest
      pure (v :: tail)

/-- `list.pop(i)` on a Python list, keeping the remaining list: valid for
`i < length`, otherwise `IndexError` (`none`). -/
def list_pop {α : Type} (l : List α) (i : ℕ) : Option (List α) :=
  if i < l.length then some (l.take i ++ l.drop (i + 1)) else none

/-- The pop loop of `PulseBlasterSequence._pop_uncessary_entries` (lines
313–315): the precomputed indices are popped one after the other from both
lists — while the lists shrink, so later indices refer to the already
shortened lists. -/
def pop_loop : List ℤ → List ℚ → List ℕ → Option (List ℤ × List ℚ)
  | bits, durs, [] => some (bits, durs)
  | bits, durs, i :: rest => do
      let durs2 ← list_pop durs i
      let bits2 ← list_pop bits i
      pop_loop bits2 durs2 rest

/-- Embeds `PulseBlasterSequence._pop_uncessary_entries` (lines 310–315):
the indices of all zero durations are computed once, by `enumerate`, on
the original list, and then popped sequentially. -/
def pop_uncessary_entries (bits : List ℤ) (durs : List ℚ) :
    Option (List ℤ × List ℚ) :=
  pop_loop bits durs ((durs.enum.filter (fun p => decide (p.2 = 0))).map Prod.fst)

/-- Embeds `PulseBlasterSequence._compute_channel_bits` (lines 299–308):
runs the bitmask loop over as many events as there are durations, prepends
an all-zero segment covering `[0, first_event_time)` when the first event
is not at time zero, and finally prunes zero-length entries.
`event_times[0]` on an empty timeline raises `IndexError` (`none`). -/
def compute_channel_bits (mapping : String → ℕ) (events : List PBEvent)
    (durations : List ℚ) : Option (List ℤ × List ℚ) := do
  let bits ← bits_loop mapping durations.length 0 events
  match events.head? with
  | none => none
  | some e0 =>
      let p := if e0.time ≠ 0 then ((0 : ℤ) :: bits, e0.time :: durations)
        else (bits, durations)
      pop_uncessary_entries p.1 p.2

/-- One iteration of `PulseBlasterSequence.parse_pulse_sequence_file`
(lines 225–233) for a single block: build the edge timeline, sort it,
derive segment durations, compute the running bitmasks and prune — giving
the block's `(channel_bits, durations)` entry of `self.ps`. -/
def process_block (mapping : String → ℕ) (total : ℚ)
    (ps_block : List (String × List (ℚ × ℚ))) : Option (List ℤ × List ℚ) := do
  let events := sort_pulses (parse_block ps_block)
  let durations ← get_event_durations (events.map PBEvent.time) total
  compute_channel_bits mapping events durations

/-- Embeds `PulseBlasterSequence.compile` (lines 235–250): walks
`zip(sequencing_order, sequencing_repeats)` and concatenates each block's
bitmask and duration lists, each repeated `block_repeats` times (Python
`list * n`); a block name missing from `ps` raises `KeyError` (`none`). -/
def compile (ps : String → Option (List ℤ × List ℚ)) (order : List String)
    (repeats : List ℕ) : Option (List ℤ × List ℚ) :=
  (order.zip repeats).foldlM
    (fun acc br => do
      let p ← ps br.1
      pure (acc.1 ++ (List.replicate br.2 p.1).flatten,
        acc.2 ++ (List.replicate br.2 p.2).flatten))
    (([], []) : List ℤ × List ℚ)

/-- `parse_pulse_sequence_file` followed by `compile`: the flat compiled
PulseBlaster program of a sequence whose blocks are given by `lookup`. -/
def transpile (mapping : String → ℕ) (total : ℚ)
    (lookup : String → Option (List (String × List (ℚ × ℚ))))
    (order : List String) (repeats : List ℕ) : Option (List ℤ × List ℚ) :=
  compile (fun name => (lookup name).bind (process_block mapping total))
    order repeats

end PulseBlasterSequence

/-- C3 counterexample: two events at the same time, inserted as channel
`"B"` (up) then channel `"A"` (down).  The claim says ties keep insertion
order, but Python sorts the whole `(time, channel, edge)` tuple: the
output swaps them, ordering by channel name (and it would equally order
`"down"` before `"up"` within one channel). -/
theorem sort_ties_not_insertion_order_cex :
    PulseBlasterSequence.sort_pulses
      [⟨1, "B", "up"⟩, ⟨1, "A", "down"⟩] =
      [⟨1, "A", "down"⟩, ⟨1, "B", "up"⟩]
    ∧ ([⟨1, "A", "down"⟩, ⟨1, "B", "up"⟩] :
        List PulseBlasterSequence.PBEvent) ≠
      [⟨1, "B", "up"⟩, ⟨1, "A", "down"⟩] := by
  constructor
  · simp [PulseBlasterSequence.sort_pulses, List.insertionSort,
      List.orderedInsert, PulseBlasterSequence.eventLE]
    all_goals first
    | decide
    | norm_num
  · decide

/-- C3 amended: the built timeline is sorted ascending by the
*lexicographic* order on the whole `(time, channel, edge)` tuple — a
permutation of the parsed events, nondecreasing in event time, but with
same-time events ordered by channel name and then by edge label
(`"down" < "up"`), not by insertion order. -/
theorem sort_pulses_lex_sorted (events : List PulseBlasterSequence.PBEvent) :
    List.Sorted PulseBlasterSequence.eventLE
      (PulseBlasterSequence.sort_pulses events)
    ∧ (PulseBlasterSequence.sort_pulses events).Perm events
    ∧ List.Pairwise (fun a b : PulseBlasterSequence.PBEvent => a.time ≤ b.time)
      (PulseBlasterSequence.sort_pulses events) := by
  refine ⟨List.sorted_insertionSort PulseBlasterSequence.eventLE events,
    List.perm_insertionSort PulseBlasterSequence.eventLE events, ?_⟩
  have hs : List.Pairwise PulseBlasterSequence.eventLE
      (PulseBlasterSequence.sort_pulses events) :=
    List.sorted_insertionSort PulseBlasterSequence.eventLE events
  exact hs.imp (fun hab => by
    rcases hab with h | ⟨h, -⟩
    exacts [le_of_lt h, le_of_eq h])

/-- The C1 failing input: one PulseBlaster block with three channels —
`"A"` holding a pulse `{start 0, duration 2}`, `"B"` a pulse
`{start 2, duration 2}`, `"C"` a pulse `{start 2, duration 1}` (times in
µs) — so three edges coincide at `t = 2` and the raw timeline contains
two adjacent zero-length segments. -/
def c1_block : List (String × List (ℚ × ℚ)) :=
  [("A", [(0, 2)]), ("B", [(2, 2)]), ("C", [(2, 1)])]

/-- The channel mapping for the C1 failing input: bits 0, 1, 2. -/
def c1_mapping : String → ℕ :=
  fun c => if c = "A" then 0 else if c = "B" then 1 else 2

/-- C1 (code bug): compiling the sequence with the single block `c1_block`
and `total_duration = 4` returns a program that still contains a
zero-duration segment.  The sorted times are `[0,2,2,2,3,4]`, the raw
segments `(bitmask, duration)` are
`[(1,2), (0,0), (2,0), (6,1), (2,1)]`; `_pop_uncessary_entries`
precomputes the zero indices `[1,2]` but pops them from the *shrinking*
lists, so `pop(1)` removes segment `(0,0)` and `pop(2)` then removes the
live segment `(6,1)` instead of `(2,0)` — the returned program is
`[(1,2), (2,0), (2,1)]`: a zero-length segment survives (and a real
segment was dropped). -/
theorem compiled_program_contains_zero_duration :
    PulseBlasterSequence.transpile c1_mapping 4
      (fun name => if name = "block_0" then some c1_block else none)
      ["block_0"] [1] = some ([1, 2, 2], [2, 0, 1])
    ∧ (0 : ℚ) ∈ ([2, 0, 1] : List ℚ) := by
  have hparse : PulseBlasterSequence.parse_block c1_block =
      [⟨0, "A", "up"⟩, ⟨2, "A", "down"⟩, ⟨2, "B", "up"⟩, ⟨4, "B", "down"⟩,
       ⟨2, "C", "up"⟩, ⟨3, "C", "down"⟩] := by
    norm_num [PulseBlasterSequence.parse_block,
      PulseBlasterSequence.parse_channel, PulseBlasterSequence.append_event,
      c1_block]
  have hsort : PulseBlasterSequence.sort_pulses
      [⟨0, "A", "up"⟩, ⟨2, "A", "down"⟩, ⟨2, "B", "up"⟩, ⟨4, "B", "down"⟩,
       ⟨2, "C", "up"⟩, ⟨3, "C", "down"⟩] =
      [⟨0, "A", "up"⟩, ⟨2, "A", "down"⟩, ⟨2, "B", "up"⟩, ⟨2, "C", "up"⟩,
       ⟨3, "C", "down"⟩, ⟨4, "B", "down"⟩] := by
    simp [PulseBlasterSequence.sort_pulses, List.insertionSort,
      List.orderedInsert, PulseBlasterSequence.eventLE]
    all_goals first
    | decide
    | norm_num
  have hdur : PulseBlasterSequence.get_event_durations [0, 2, 2, 2, 3, 4] 4 =
      some [2, 0, 0, 1, 1] := by
    simp [PulseBlasterSequence.get_event_durations]
    norm_num
  have hbits : PulseBlasterSequence.bits_loop c1_mapping 5 0
      [⟨0, "A", "up"⟩, ⟨2, "A", "down"⟩, ⟨2, "B", "up"⟩, ⟨2, "C", "up"⟩,
       ⟨3, "C", "down"⟩, ⟨4, "B", "down"⟩] = some [1, 0, 2, 6, 2] := by
    norm_num [PulseBlasterSequence.bits_loop,
      PulseBlasterSequence.event_to_sign, c1_mapping,
      show ("down" : String) ≠ "up" from by decide,
      show ("B" : String) ≠ "A" from by decide,
      show ("C" : String) ≠ "A" from by decide,
      show ("C" : String) ≠ "B" from by decide]
  have hpop : PulseBlasterSequence.pop_uncessary_entries [1, 0, 2, 6, 2]
      [2, 0, 0, 1, 1] = some ([1, 2, 2], [2, 0, 1]) := by
    norm_num [PulseBlasterSequence.pop_uncessary_entries,
      PulseBlasterSequence.pop_loop, PulseBlasterSequence.list_pop, List.enum]
  have hcompute : PulseBlasterSequence.compute_channel_bits c1_mapping
      [⟨0, "A", "up"⟩, ⟨2, "A", "down"⟩, ⟨2, "B", "up"⟩, ⟨2, "C", "up"⟩,
       ⟨3, "C", "down"⟩, ⟨4, "B", "down"⟩] [2, 0, 0, 1, 1] =
      some ([1, 2, 2], [2, 0, 1]) := by
    simp only [PulseBlasterSequence.compute_channel_bits, List.length_cons,
      List.length_nil]
    rw [hbits]
    simp only [Option.bind_some, List.head?_cons]
    norm_num
    exact hpop
  have hblock : PulseBlasterSequence.process_block c1_mapping 4 c1_block =
      some ([1, 2, 2], [2, 0, 1]) := by
    simp only [PulseBlasterSequence.process_block, hparse, hsort,
      List.map_cons, List.map_nil]
    rw [hdur]
    simpa using hcompute
  refine ⟨?_, by norm_num⟩
  simp [PulseBlasterSequence.transpile, PulseBlasterSequence.compile, hblock]
